import Mathlib

attribute [local semireducible] Rat.mul Rat.inv Rat.add Rat.sub Rat.ofScientific

/-!
Verification development for the feedback ingestion / analysis / aggregation
pipeline of the repository (app/domain/services/feedback_service.py,
app/domain/chains/feedback_chain.py, app/domain/models/feedback.py).

The Python code is shallow-embedded:
* Python `str` is Lean `String` (a list of characters); `str.strip` and
  `str.lower` are modeled on ASCII whitespace / ASCII letters, which covers
  every string the pipeline and its fixtures use.
* Python `float` scores are modeled as exact rationals `ℚ`; the score
  arithmetic of the pipeline (clamping, summing, one division) is the same
  function on ℚ.
* A Python dict used as a record is modeled by the record structure the
  parser actually emits (keys comment / username / channel / date, where
  `Option.none` models a stored Python `None`); `dict.get` with a default is
  modeled by `CommentData.pyGet`.
* The external LLM call is an `Except` value: `.error` models the call (or
  the structured-output parse) raising, `.ok` a parsed `CommentAnalysis`.
* `asyncio.gather(..., return_exceptions=True)` delivers one outcome per
  task in input order; the outcome of the task for record `c` is `task c`.
-/

/-! ## Python string primitives -/

/-- ASCII whitespace test, modeling the characters `str.strip` removes. -/
def isPySpace (c : Char) : Bool := c.isWhitespace

/-- Drop trailing characters satisfying `p`. -/
def dropTrailWhile (p : Char → Bool) : List Char → List Char
  | [] => []
  | c :: rest =>
    let r := dropTrailWhile p rest
    if r = [] ∧ p c then [] else c :: r

/-- Model of Python `str.strip()` on the character list. -/
def stripList (l : List Char) : List Char :=
  dropTrailWhile isPySpace (l.dropWhile isPySpace)

/-- Model of Python `str.strip()`. -/
def pyStrip (s : String) : String := ⟨stripList s.data⟩

/-- Lower-case one character (ASCII), modeling `str.lower` on the
alphabet the pipeline uses. -/
def lowerChar (c : Char) : Char :=
  if 65 ≤ c.toNat ∧ c.toNat ≤ 90 then Char.ofNat (c.toNat + 32) else c

/-- Model of Python `str.lower()`. -/
def pyLower (s : String) : String := ⟨s.data.map lowerChar⟩

/-- Python truthiness of an `Optional[str]`: `None` and the empty string
are falsy. -/
def pyTruthy : Option String → Bool
  | none => false
  | some s => s ≠ ""

/-! ## Data model (app/domain/chains/feedback_chain.py, CommentAnalysis) -/

/-- One LLM-derived analysis result (class `CommentAnalysis`). -/
structure CommentAnalysis where
  sentiment : String
  sentiment_score : ℚ
  themes : List String
  issues : List String
  issue_priority : Option String
  feature_requests : List String
deriving Repr, DecidableEq

/-- One normalized input row, exactly the dict `_parse_feedback_file`
emits: keys comment / username / channel / date, never an `sku` key.
`none` in `channel` / `date` models a stored Python `None`. -/
structure CommentData where
  comment : String
  username : String
  channel : Option String
  date : Option String
deriving Repr, DecidableEq

/-- Model of `record.get(field, default)` on the parser-emitted dict:
a present key returns its stored value (possibly `None`); any other key
(such as `sku`, which the parser never stores) returns the default. -/
def CommentData.pyGet (d : CommentData) (field : String) (default : Option String) :
    Option String :=
  if field = "comment" then some d.comment
  else if field = "username" then some d.username
  else if field = "channel" then d.channel
  else if field = "date" then d.date
  else default

/-! ## FeedbackChain._validate_analysis -/

/-- The three admissible sentiment labels. -/
def validSentiments : List String := ["positive", "neutral", "negative"]

/-- The three admissible issue priorities. -/
def validPriorities : List String := ["alta", "media", "baja"]

/-- Model of the issues comprehension
`[issue.lower().strip() for issue in issues if issue.strip()][:3]`. -/
def cleanIssues (issues : List String) : List String :=
  ((issues.filter (fun i => pyStrip i ≠ "")).map (fun i => pyStrip (pyLower i))).take 3

/-- Model of the feature-request comprehension
`[req.strip() for req in feature_requests if req.strip()][:3]`. -/
def cleanRequests (reqs : List String) : List String :=
  ((reqs.filter (fun r => pyStrip r ≠ "")).map (fun r => pyStrip r)).take 3

/-- The priority statement of `_validate_analysis`:
`if analysis.issue_priority and analysis.issue_priority not in [...]` —
a falsy (absent or empty) priority leaves the branch untaken, an invalid
truthy one is replaced by `media` when the issues list is non-empty and
by `None` otherwise, and a valid one is kept. -/
def cleanPriority (priority : Option String) (issues : List String) : Option String :=
  match priority with
  | none => none
  | some p =>
    if p ≠ "" ∧ ¬ validPriorities.contains p then
      (if issues.isEmpty then none else some "media")
    else some p

/-- Model of `FeedbackChain._validate_analysis`: sentiment-label fallback,
score clamping, theme / issue / request truncation, priority validation.
The priority branch reads the already-cleaned issues list, as the Python
method mutates `analysis.issues` before testing it. -/
def _validate_analysis (a : CommentAnalysis) : CommentAnalysis :=
  { sentiment := if validSentiments.contains a.sentiment then a.sentiment else "neutral"
    sentiment_score := max 0 (min 1 a.sentiment_score)
    themes := if a.themes.isEmpty then ["general"] else a.themes.take 3
    issues := cleanIssues a.issues
    issue_priority := cleanPriority a.issue_priority (cleanIssues a.issues)
    feature_requests := cleanRequests a.feature_requests }

/-! ## FeedbackChain.analyze_comment / analyze_batch -/

/-- The fallback analysis built in the `except` branch of
`analyze_comment` (themes `["general"]`). -/
def fallbackGeneral : CommentAnalysis :=
  { sentiment := "neutral", sentiment_score := 1/2, themes := ["general"],
    issues := [], issue_priority := none, feature_requests := [] }

/-- The fallback analysis built in the exception loop of `analyze_batch`
(themes `["error"]`), used only for exceptions that reach `gather`. -/
def fallbackError : CommentAnalysis :=
  { sentiment := "neutral", sentiment_score := 1/2, themes := ["error"],
    issues := [], issue_priority := none, feature_requests := [] }

/-- Model of `FeedbackChain.analyze_comment`: the whole body is wrapped in
`try/except Exception`, so a failing LLM call (or malformed structured
output) yields the `fallbackGeneral` judgment, and a successful call is
normalized by `_validate_analysis`. `llmResult` is the outcome of
`self.chain.ainvoke(...)`. -/
def analyze_comment (llmResult : Except Unit CommentAnalysis) : CommentAnalysis :=
  match llmResult with
  | .ok raw => _validate_analysis raw
  | .error _ => fallbackGeneral

/-- Model of `FeedbackChain.analyze_batch`: empty input returns `[]`
before any task is built; otherwise one task per record is gathered in
input order and an exceptional outcome is replaced by `fallbackError`.
`task c` is the outcome the gather loop sees for record `c` (normally
`.ok (analyze_comment ...)`, since `analyze_comment` never raises).
The semaphore bounds in-flight tasks only; it does not affect the result.
`gatherHandle` is the body of the exception loop over gather results. -/
def gatherHandle (outcome : Except Unit CommentAnalysis) : CommentAnalysis :=
  match outcome with
  | .ok a => a
  | .error _ => fallbackError

/-- Model of `FeedbackChain.analyze_batch` (see `gatherHandle`). -/
def analyze_batch (task : CommentData → Except Unit CommentAnalysis)
    (comments_data : List CommentData) : List CommentAnalysis :=
  if comments_data.isEmpty then []
  else comments_data.map (fun c => gatherHandle (task c))

/-! ## collections.Counter -/

/-- One `Counter[x] += 1` step on an insertion-ordered count list. -/
def counterAdd (c : List (String × Nat)) (x : String) : List (String × Nat) :=
  if c.any (fun p => p.1 = x) then
    c.map (fun p => if p.1 = x then (p.1, p.2 + 1) else p)
  else c ++ [(x, 1)]

/-- Model of `Counter.update(xs)` / counting an iterable: counts keyed in
first-seen order, as a Python `Counter` keeps insertion order. -/
def counterUpdate (c : List (String × Nat)) (xs : List String) : List (String × Nat) :=
  xs.foldl counterAdd c

/-- Counting a list from the empty counter. -/
def countList (xs : List String) : List (String × Nat) := counterUpdate [] xs

/-- Stable insertion of one entry into a count-descending list: the new
entry goes after every entry with a count ≥ its own. -/
def insertByCount (p : String × Nat) : List (String × Nat) → List (String × Nat)
  | [] => [p]
  | q :: rest => if p.2 > q.2 then p :: q :: rest else q :: insertByCount p rest

/-- Stable sort by descending count, modeling the order
`Counter.most_common` returns (CPython sorts stably, so ties keep
first-seen order). -/
def sortByCountDesc (c : List (String × Nat)) : List (String × Nat) :=
  c.foldl (fun acc p => insertByCount p acc) []

/-- Model of `Counter.most_common(n)`. -/
def most_common (n : Nat) (c : List (String × Nat)) : List (String × Nat) :=
  (sortByCountDesc c).take n

/-! ## Response model (app/domain/models/feedback.py) -/

/-- Overall sentiment (class `SentimentScore`). -/
structure SentimentScore where
  label : String
  score : ℚ
deriving Repr, DecidableEq

/-- One ranked theme (class `Theme`). -/
structure Theme where
  name : String
  examples : List String
deriving Repr, DecidableEq

/-- One ranked issue (class `Issue`). -/
structure Issue where
  issue : String
  count : Nat
  priority : String
deriving Repr, DecidableEq

/-- One ranked feature request (class `FeatureRequest`). -/
structure FeatureRequest where
  request : String
  count : Nat
deriving Repr, DecidableEq

/-- One highlight (class `Highlight`). The source model has only `quote`
and `channel`; the chain also passes an `sku=` keyword argument, which
pydantic silently discards because the model declares no such field. -/
structure Highlight where
  quote : String
  channel : Option String
deriving Repr, DecidableEq

/-- One per-field bucket as built by `_aggregate_by_field` (a plain dict
in the source). -/
structure FieldBucket where
  total_comments : Nat
  sentiment_distribution : List (String × Nat)
  top_themes : List String
  top_issues : List String
deriving Repr, DecidableEq

/-- The response model (class `FeedbackAnalyzeResponse`). Its declared
fields are exactly these; the `by_sku=` keyword argument the chain passes
is silently discarded by pydantic, so the response carries no by-sku
breakdown. Bucket keys are Python values: `none` models a `None` key. -/
structure FeedbackAnalyzeResponse where
  overall_sentiment : SentimentScore
  themes : List Theme
  top_issues : List Issue
  feature_requests : List FeatureRequest
  highlights : List Highlight
  by_channel : List (Option String × FieldBucket)
deriving Repr, DecidableEq

/-! ## FeedbackChain aggregation helpers -/

/-- A record used for the unreachable branch of a guarded index access. -/
def defaultRecord : CommentData := { comment := "", username := "", channel := none, date := none }

/-- Loop of `FeedbackChain._get_theme_examples`: scan analyses in order,
keep record comments under 100 characters whose analysis mentions the
theme, stop at 3; indices past the record list are skipped by the
`i < len(comments_data)` guard. -/
def themeExamplesGo (theme : String) (comments_data : List CommentData) :
    Nat → List CommentAnalysis → List String → List String
  | _, [], acc => acc
  | i, a :: rest, acc =>
    if theme ∈ a.themes ∧ i < comments_data.length then
      let comment := (comments_data.getD i defaultRecord).comment
      let acc' := if comment ≠ "" ∧ comment.length < 100 then acc ++ [comment] else acc
      if 3 ≤ acc'.length then acc' else themeExamplesGo theme comments_data (i + 1) rest acc'
    else themeExamplesGo theme comments_data (i + 1) rest acc

/-- Model of `FeedbackChain._get_theme_examples`. -/
def _get_theme_examples (theme : String) (analyses : List CommentAnalysis)
    (comments_data : List CommentData) : List String :=
  themeExamplesGo theme comments_data 0 analyses []

/-- Loop of `FeedbackChain._generate_highlights`: scan analyses in order,
keep quotes of positive analyses with score > 0.8 whose record comment
length is in (20, 150), stop at 5; indices past the record list are
skipped by the `i < len(comments_data)` guard. -/
def highlightsGo (comments_data : List CommentData) :
    Nat → List CommentAnalysis → List Highlight → List Highlight
  | _, [], acc => acc
  | i, a :: rest, acc =>
    if a.sentiment = "positive" ∧ (8 : ℚ)/10 < a.sentiment_score ∧ i < comments_data.length then
      let d := comments_data.getD i defaultRecord
      let acc' :=
        if 20 < d.comment.length ∧ d.comment.length < 150 then
          acc ++ [{ quote := d.comment, channel := d.channel }]
        else acc
      if 5 ≤ acc'.length then acc' else highlightsGo comments_data (i + 1) rest acc'
    else highlightsGo comments_data (i + 1) rest acc

/-- Model of `FeedbackChain._generate_highlights`. -/
def _generate_highlights (analyses : List CommentAnalysis)
    (comments_data : List CommentData) : List Highlight :=
  highlightsGo comments_data 0 analyses []

/-- Raw per-bucket state of `_aggregate_by_field` (the defaultdict value). -/
structure RawBucket where
  sentiments : List (String × Nat)
  themes : List (String × Nat)
  issues : List (String × Nat)
  total_comments : Nat
deriving Repr, DecidableEq

/-- The defaultdict initializer of `_aggregate_by_field`. -/
def emptyRawBucket : RawBucket :=
  { sentiments := [], themes := [], issues := [], total_comments := 0 }

/-- The four mutations the `_aggregate_by_field` loop applies to the
bucket of the current record. -/
def bucketUpd (b : RawBucket) (a : CommentAnalysis) : RawBucket :=
  { sentiments := counterAdd b.sentiments a.sentiment
    themes := counterUpdate b.themes a.themes
    issues := counterUpdate b.issues a.issues
    total_comments := b.total_comments + 1 }

/-- Touch-and-update of the defaultdict entry for key `k`: an absent key
is created (insertion order: appended) with the initializer, then updated. -/
def upsertBucket (k : Option String) (a : CommentAnalysis) :
    List (Option String × RawBucket) → List (Option String × RawBucket)
  | [] => [(k, bucketUpd emptyRawBucket a)]
  | (k', b) :: rest =>
    if k' = k then (k', bucketUpd b a) :: rest else (k', b) :: upsertBucket k a rest

/-- Collect loop of `_aggregate_by_field`: iterate analyses with their
index, skipping indices past the record list, and bucket by
`comments_data[i].get(field, "unknown")`. -/
def collectByFieldGo (field : String) (comments_data : List CommentData) :
    Nat → List CommentAnalysis → List (Option String × RawBucket) →
    List (Option String × RawBucket)
  | _, [], acc => acc
  | i, a :: rest, acc =>
    if i < comments_data.length then
      let k := (comments_data.getD i defaultRecord).pyGet field (some "unknown")
      collectByFieldGo field comments_data (i + 1) rest (upsertBucket k a acc)
    else collectByFieldGo field comments_data (i + 1) rest acc

/-- Final conversion of one raw bucket (the dict built per key in the
second loop of `_aggregate_by_field`). -/
def finalizeBucket (b : RawBucket) : FieldBucket :=
  { total_comments := b.total_comments
    sentiment_distribution := b.sentiments
    top_themes := (most_common 5 b.themes).map (fun p => p.1)
    top_issues := (most_common 3 b.issues).map (fun p => p.1) }

/-- Model of `FeedbackChain._aggregate_by_field`: group, then emit every
bucket whose `total_comments` is positive. -/
def _aggregate_by_field (analyses : List CommentAnalysis)
    (comments_data : List CommentData) (field : String) :
    List (Option String × FieldBucket) :=
  (collectByFieldGo field comments_data 0 analyses []).filterMap (fun p =>
    if 0 < p.2.total_comments then some (p.1, finalizeBucket p.2) else none)

/-! ## FeedbackChain.aggregate_results -/

/-- The empty-input response (`no analyses to aggregate`). -/
def emptyResponse : FeedbackAnalyzeResponse :=
  { overall_sentiment := { label := "neutral", score := 1/2 }
    themes := [], top_issues := [], feature_requests := [], highlights := []
    by_channel := [] }

/-- The score list `[a.sentiment_score for a in analyses if a.sentiment_score > 0]`. -/
def positiveScores (analyses : List CommentAnalysis) : List ℚ :=
  (analyses.map (fun a => a.sentiment_score)).filter (fun q => 0 < q)

/-- The overall score: mean of strictly positive scores, 0.5 if none. -/
def overallScore (analyses : List CommentAnalysis) : ℚ :=
  let scores := positiveScores analyses
  if scores.isEmpty then 1/2 else scores.sum / scores.length

/-- One `priorities[issue] = analysis.issue_priority` dict write (value
overwritten, key position kept, new keys appended). -/
def dictSet (d : List (String × String)) (k v : String) : List (String × String) :=
  if d.any (fun p => p.1 = k) then
    d.map (fun p => if p.1 = k then (k, v) else p)
  else d ++ [(k, v)]

/-- The `issue_priorities` dict of `aggregate_results`: for each analysis
and each of its issues, a truthy priority overwrites the stored one, so
the final value is the last-seen truthy priority. -/
def issuePriorityDict (analyses : List CommentAnalysis) : List (String × String) :=
  analyses.foldl (fun d a =>
    a.issues.foldl (fun d issue =>
      if pyTruthy a.issue_priority then dictSet d issue (a.issue_priority.getD "") else d) d) []

/-- Assoc-list lookup, modeling a Python dict read. -/
def alookup {α β : Type} [DecidableEq α] (l : List (α × β)) (k : α) : Option β :=
  (l.find? (fun p => p.1 = k)).map (fun p => p.2)

/-- Model of `FeedbackChain.aggregate_results`. The one fallible step is
`sentiment_counts.most_common(1)[0][0]`, whose `[0]` indexing is modeled
by `List.get?`; every other step is total. The chain also computes a
by-sku grouping and passes it as `by_sku=`, but the response model
declares no such field, so pydantic discards it (see
`FeedbackAnalyzeResponse`). -/
def aggregate_results (analyses : List CommentAnalysis)
    (comments_data : List CommentData) : Option FeedbackAnalyzeResponse :=
  if analyses.isEmpty then some emptyResponse
  else
    match (most_common 1 (countList (analyses.map (fun a => a.sentiment)))).get? 0 with
    | none => none
    | some top =>
      let theme_counter := counterUpdate [] ((analyses.map (fun a => a.themes)).flatten)
      let issue_counter := counterUpdate [] ((analyses.map (fun a => a.issues)).flatten)
      let request_counter := counterUpdate [] ((analyses.map (fun a => a.feature_requests)).flatten)
      some
        { overall_sentiment := { label := top.1, score := overallScore analyses }
          themes := (most_common 10 theme_counter).map (fun p =>
            { name := p.1, examples := _get_theme_examples p.1 analyses comments_data })
          top_issues := (most_common 10 issue_counter).map (fun p =>
            { issue := p.1, count := p.2,
              priority := (alookup (issuePriorityDict analyses) p.1).getD "media" })
          feature_requests := (most_common 10 request_counter).map (fun p =>
            { request := p.1, count := p.2 })
          highlights := _generate_highlights analyses comments_data
          by_channel := _aggregate_by_field analyses comments_data "channel" }

/-! ## FeedbackService._parse_feedback_file -/

/-- The alias table `column_mapping` of `_parse_feedback_file`. -/
def column_mapping : List (String × List String) :=
  [("comment", ["comment", "comentario", "feedback", "review", "opinion", "text"]),
   ("username", ["username", "user", "usuario", "name", "nombre"]),
   ("channel", ["channel", "canal", "platform", "plataforma", "source"]),
   ("date", ["date", "fecha", "timestamp", "created_at"])]

/-- One pass of the alias loop for a single logical field: the first
alias present among the current headers (alias-list order, exact
case-sensitive equality) is renamed to the standard name; `df.rename`
renames every column bearing that name. -/
def applyAlias (hs : List String) (std : String) (vars : List String) : List String :=
  match vars.find? (fun v => hs.contains v) with
  | some v => hs.map (fun h => if h = v then std else h)
  | none => hs

/-- The full alias loop over `column_mapping`, in declaration order. -/
def applyColumnMapping (hs : List String) : List String :=
  column_mapping.foldl (fun hs p => applyAlias hs p.1 p.2) hs

/-- Header resolution of `_parse_feedback_file`: the alias loop runs only
when no column is literally named `comment` (the `if missing_required:`
guard); otherwise the headers are left untouched. -/
def resolveHeaders (hs : List String) : List String :=
  if hs.contains "comment" then hs else applyColumnMapping hs

/-- A loaded tabular file (the pandas DataFrame): named columns and rows
of cells, where `none` models a missing value (NaN). -/
structure FeedbackTable where
  headers : List String
  rows : List (List (Option String))
deriving Repr

/-- Cell of a row under a column name (first matching column, as
`df[col]` reads). -/
def cellAt (headers : List String) (row : List (Option String)) (col : String) :
    Option String :=
  match headers.findIdx? (fun h => h = col) with
  | some i => (row.get? i).getD none
  | none => none

/-- Row normalization of `_parse_feedback_file`: a row survives iff its
comment cell is present (`dropna`) and its stripped comment has length
in (5, 1000) (the `> 5` column filter and the final `> 5 and < 1000`
check); the emitted dict holds the stripped comment, the username (dict
default `anonymous` when the column is absent; a present column with a
missing cell is a NaN, which `str(...)` turns into `"nan"`), and the raw
channel / date cells. -/
def mkRecord (headers : List String) (row : List (Option String)) : Option CommentData :=
  match cellAt headers row "comment" with
  | none => none
  | some c0 =>
    if 5 < (pyStrip c0).length ∧ (pyStrip c0).length < 1000 then
      some { comment := pyStrip c0
             username :=
               if headers.contains "username" then
                 (cellAt headers row "username").getD "nan"
               else "anonymous"
             channel := cellAt headers row "channel"
             date := cellAt headers row "date" }
    else none

/-- Model of `FeedbackService._parse_feedback_file` after the DataFrame
is loaded: resolve headers, fail when no comment column resolves, then
normalize and filter the rows. The emitted dicts carry only comment /
username / channel / date; in particular an `sku` column is dropped. -/
def parse_feedback_table (t : FeedbackTable) : Except String (List CommentData) :=
  let headers := resolveHeaders t.headers
  if headers.contains "comment" then
    .ok (t.rows.filterMap (mkRecord headers))
  else .error "Missing required columns"

/-! ## Characterizations used to state the claims

The following definitions are not translations of source code; they spell
out, in the words of the specification, the values the claims assert the
source functions compute, so that the theorems below can compare the two. -/

/-- The largest count in a counter. -/
def maxCount (c : List (String × Nat)) : Nat :=
  (c.map (fun p => p.2)).foldr max 0

/-- The mode of the sentiment labels, ties broken by first-seen order
during the count: the first entry of the insertion-ordered counter whose
count is maximal. -/
def specModeLabel (analyses : List CommentAnalysis) : Option String :=
  let c := countList (analyses.map (fun a => a.sentiment))
  (c.find? (fun p => maxCount c ≤ p.2)).map (fun p => p.1)

/-- The mean the claim describes for the overall score: the arithmetic
mean of the judgment scores with exactly-zero scores excluded from the
denominator set, and 0.5 when that set is empty. -/
def specMeanScore (analyses : List CommentAnalysis) : ℚ :=
  let nz := (analyses.map (fun a => a.sentiment_score)).filter (fun q => q ≠ 0)
  if nz.isEmpty then 1/2 else nz.sum / nz.length

/-- The judgment/record pairs of a bucket: those whose record's value for
the field (with the dict default `"unknown"`) equals the bucket key. -/
def bucketMembers (pairs : List (CommentAnalysis × CommentData)) (field : String)
    (k : Option String) : List (CommentAnalysis × CommentData) :=
  pairs.filter (fun m => m.2.pyGet field (some "unknown") = k)

/-- The raw bucket a member list denotes: per-member sentiment counts,
flattened theme and issue counts, and the member count. -/
def rawBucketOf (members : List (CommentAnalysis × CommentData)) : RawBucket :=
  { sentiments := countList (members.map (fun m => m.1.sentiment))
    themes := countList ((members.map (fun m => m.1.themes)).flatten)
    issues := countList ((members.map (fun m => m.1.issues)).flatten)
    total_comments := members.length }

/-- Head evolution of the stable descending insertion sort: starting from
the head of the accumulator, an entry replaces the running head only when
its count is strictly larger. -/
def foldHead (cur : Option (String × Nat)) : List (String × Nat) → Option (String × Nat)
  | [] => cur
  | p :: rest =>
    foldHead (match cur with
              | none => some p
              | some b => if p.2 > b.2 then some p else some b) rest

/-! ## Concrete scenario inputs from the specification -/

/-- The five judgments of the §8 aggregation scenario: labels
positive / neutral / negative / neutral / positive with scores
0.9 / 0.6 / 0.2 / 0.7 / 0.8. -/
def scenarioJudgments : List CommentAnalysis :=
  [{ sentiment := "positive", sentiment_score := 9/10, themes := ["sabor"],
     issues := [], issue_priority := none, feature_requests := [] },
   { sentiment := "neutral", sentiment_score := 6/10, themes := ["textura"],
     issues := [], issue_priority := none, feature_requests := [] },
   { sentiment := "negative", sentiment_score := 2/10, themes := ["precio"],
     issues := ["precio"], issue_priority := some "alta", feature_requests := [] },
   { sentiment := "neutral", sentiment_score := 7/10, themes := ["variedad"],
     issues := [], issue_priority := none, feature_requests := [] },
   { sentiment := "positive", sentiment_score := 8/10, themes := ["calidad"],
     issues := [], issue_priority := none, feature_requests := [] }]

/-- Five records paired with `scenarioJudgments`. -/
def scenarioRecords : List CommentData :=
  [{ comment := "Me encantan estos chips de kale", username := "user123",
     channel := some "ecommerce", date := none },
   { comment := "El sabor podria ser mejor", username := "user456",
     channel := some "instagram", date := none },
   { comment := "Horrible, muy caro", username := "user789",
     channel := some "mercadolibre", date := none },
   { comment := "Version sin sal seria perfecto", username := "user101",
     channel := some "instagram", date := none },
   { comment := "Excelente producto, lo compro siempre", username := "user202",
     channel := some "ecommerce", date := none }]

/-- Three records for the all-analyzer-calls-fail batch scenario. -/
def failRecords : List CommentData :=
  [{ comment := "comentario numero uno aqui", username := "a",
     channel := some "web", date := none },
   { comment := "comentario numero dos aqui", username := "b",
     channel := some "web", date := none },
   { comment := "comentario numero tres aqui", username := "c",
     channel := some "web", date := none }]

/-- The ingestion scenario table: lone `comment` column, one row whose
comment is `"ok"` (length 2) and one row with a valid comment. -/
def okTable : FeedbackTable :=
  { headers := ["comment"],
    rows := [[some "ok"], [some "buen producto, me gusta"]] }

/-- A table whose header already contains `comment` next to the
`username` alias `usuario`. -/
def usuarioTable : FeedbackTable :=
  { headers := ["comment", "usuario"],
    rows := [[some "Muy bueno el snack", some "user1"]] }

/-- The Spanish-alias scenario table (header `comentario,usuario,producto`). -/
def spanishTable : FeedbackTable :=
  { headers := ["comentario", "usuario", "producto"],
    rows := [[some "Muy bueno el snack", some "user1", some "PROD1"]] }

/-- The §8 upload scenario row (header `comment,username,sku,channel`). -/
def skuTable : FeedbackTable :=
  { headers := ["comment", "username", "sku", "channel"],
    rows := [[some "Me encantan estos chips de kale, muy crujientes",
              some "user123", some "KALE-90G", some "ecommerce"]] }

/-- The record `okTable` parses to. -/
def okRecord : CommentData :=
  { comment := "buen producto, me gusta", username := "anonymous",
    channel := none, date := none }

/-- The record `usuarioTable` parses to (the `usuario` column is not
resolved, so the author defaults to `anonymous`). -/
def usuarioRecord : CommentData :=
  { comment := "Muy bueno el snack", username := "anonymous",
    channel := none, date := none }

/-- The record `spanishTable` parses to. -/
def spanishRecord : CommentData :=
  { comment := "Muy bueno el snack", username := "user1",
    channel := none, date := none }

/-- The record `skuTable` parses to: the `sku` cell `KALE-90G` is not
carried over, because the emitted dict holds only comment / username /
channel / date. -/
def skuRecord : CommentData :=
  { comment := "Me encantan estos chips de kale, muy crujientes",
    username := "user123", channel := some "ecommerce", date := none }

/-- A record whose channel value is a stored Python `None` (as parse
emits when the channel column is absent). -/
def nullChannelRecord : CommentData :=
  { comment := "un comentario bastante largo aqui", username := "u",
    channel := none, date := none }

/-- A raw judgment with a valid priority `alta` and an empty issues list. -/
def c4Input : CommentAnalysis :=
  { sentiment := "positive", sentiment_score := 1/2, themes := ["tema"],
    issues := [], issue_priority := some "alta", feature_requests := [] }

/-- A raw judgment with an invalid priority `urgente` and one issue. -/
def c4InvalidInput : CommentAnalysis :=
  { sentiment := "negative", sentiment_score := 1/2, themes := ["tema"],
    issues := ["precio"], issue_priority := some "urgente", feature_requests := [] }

/-! # Theorems -/

/-! ## Generic helper lemmas -/

theorem analyze_batch_eq_map (task : CommentData → Except Unit CommentAnalysis)
    (comments_data : List CommentData) :
    analyze_batch task comments_data = comments_data.map (fun c => gatherHandle (task c)) := by
  cases comments_data <;> simp [analyze_batch]

/-! ## C1: the analyzer-failure fallback judgment -/

/-- C1, counterexample: the claim says the judgment `analyze` returns on
an internal failure has theme list `["error"]`; the `except` branch of
`analyze_comment` actually builds themes `["general"]` (the
`["error"]`-themed fallback exists only in the `analyze_batch` gather
loop, which the catch-all inside `analyze_comment` keeps unreachable). -/
theorem c1_fallback_theme_counterexample :
    (analyze_comment (Except.error ())).themes = ["general"] ∧
    (analyze_comment (Except.error ())).themes ≠ ["error"] := by
  exact ⟨rfl, by decide⟩

/-- C1, amended: on any internal failure `analyze_comment` returns (never
raises) the fallback judgment with sentiment `neutral`, score 0.5, theme
list `["general"]` and empty issues and feature requests; a 3-comment
batch in which every analyzer call fails therefore aggregates to a report
whose only theme is `"general"` with count 3 and overall sentiment
neutral / 0.5. -/
theorem c1_fallback_judgment_amended :
    analyze_comment (Except.error ()) = fallbackGeneral ∧
    fallbackGeneral.sentiment = "neutral" ∧
    fallbackGeneral.sentiment_score = 1/2 ∧
    fallbackGeneral.themes = ["general"] ∧
    fallbackGeneral.issues = [] ∧
    fallbackGeneral.feature_requests = [] ∧
    analyze_batch (fun _ => Except.ok (analyze_comment (Except.error ()))) failRecords =
      [fallbackGeneral, fallbackGeneral, fallbackGeneral] ∧
    countList (([fallbackGeneral, fallbackGeneral, fallbackGeneral].map
      (fun a => a.themes)).flatten) = [("general", 3)] ∧
    (aggregate_results [fallbackGeneral, fallbackGeneral, fallbackGeneral] failRecords).map
      (fun r => (r.overall_sentiment, r.themes.map (fun t => t.name))) =
      some ({ label := "neutral", score := 1/2 }, ["general"]) := by
  refine ⟨rfl, rfl, by decide, rfl, rfl, rfl, by decide, by decide, by decide⟩

/-! ## C2: positional correspondence of analyze_batch -/

/-- C2: `analyze_batch` returns one judgment per record; entry `i` of the
output is the (exception-handled) outcome of the task for record `i`, and
the empty input returns `[]` (the early `if not comments_data` return,
taken before any task is created). -/
theorem c2_positional_correspondence
    (task : CommentData → Except Unit CommentAnalysis)
    (comments_data : List CommentData) :
    (analyze_batch task comments_data).length = comments_data.length ∧
    (∀ i : Nat, (analyze_batch task comments_data).get? i =
      (comments_data.get? i).map (fun c => gatherHandle (task c))) ∧
    analyze_batch task [] = [] := by
  refine ⟨?_, ?_, rfl⟩
  · simp [analyze_batch_eq_map]
  · intro i
    simp [analyze_batch_eq_map]

/-! ## String helper lemmas (strip / lower) -/

theorem dropTrailWhile_cons (p : Char → Bool) (c : Char) (rest : List Char) :
    dropTrailWhile p (c :: rest) =
      if dropTrailWhile p rest = [] ∧ p c then [] else c :: dropTrailWhile p rest := rfl

theorem dropTrailWhile_idem (p : Char → Bool) (l : List Char) :
    dropTrailWhile p (dropTrailWhile p l) = dropTrailWhile p l := by
  induction l with
  | nil => rfl
  | cons c rest ih =>
    by_cases h : dropTrailWhile p rest = [] ∧ p c
    · rw [dropTrailWhile_cons, if_pos h]; rfl
    · rw [dropTrailWhile_cons, if_neg h, dropTrailWhile_cons, ih, if_neg h]

theorem not_head_dropWhile (p : Char → Bool) (l : List Char) (c : Char) (rest : List Char)
    (h : l.dropWhile p = c :: rest) : p c = false := by
  induction l with
  | nil => simp at h
  | cons a t ih =>
    rw [List.dropWhile_cons] at h
    cases ha : p a with
    | true => rw [ha] at h; simp at h; exact ih h
    | false => rw [ha] at h; simp at h; rw [← h.1]; exact ha

theorem dropWhile_dropTrail_dropWhile (p : Char → Bool) (l : List Char) :
    (dropTrailWhile p (l.dropWhile p)).dropWhile p = dropTrailWhile p (l.dropWhile p) := by
  cases hA : l.dropWhile p with
  | nil => rfl
  | cons c rest =>
    have hc : p c = false := not_head_dropWhile p l c rest hA
    rw [dropTrailWhile_cons]
    by_cases h : dropTrailWhile p rest = [] ∧ p c
    · rw [if_pos h]; rfl
    · rw [if_neg h, List.dropWhile_cons, hc]; simp

theorem stripList_idem (l : List Char) : stripList (stripList l) = stripList l := by
  unfold stripList
  rw [dropWhile_dropTrail_dropWhile]
  exact dropTrailWhile_idem isPySpace (l.dropWhile isPySpace)

theorem pyStrip_idem (s : String) : pyStrip (pyStrip s) = pyStrip s :=
  congrArg String.mk (stripList_idem s.data)

theorem isPySpace_false_of_ge (c : Char) (h : 33 ≤ c.toNat) : isPySpace c = false := by
  have hne : ∀ d : Char, d.toNat < 33 → ¬ (c = d) := by
    intro d hd e; rw [e] at h; omega
  simp [isPySpace, Char.isWhitespace, hne ' ' (by decide), hne '\t' (by decide),
        hne '\r' (by decide), hne '\n' (by decide)]

theorem toNat_ofNat_lower (n : Nat) (h : n ≤ 188) : (Char.ofNat n).toNat = n := by
  have hv : n.isValidChar := Or.inl (by omega)
  unfold Char.ofNat
  rw [dif_pos hv]
  rfl

theorem lowerChar_idem (c : Char) : lowerChar (lowerChar c) = lowerChar c := by
  unfold lowerChar
  by_cases h : 65 ≤ c.toNat ∧ c.toNat ≤ 90
  · rw [if_pos h, toNat_ofNat_lower _ (by omega), if_neg (by omega)]
  · rw [if_neg h, if_neg h]

theorem isPySpace_lowerChar (c : Char) : isPySpace (lowerChar c) = isPySpace c := by
  unfold lowerChar
  by_cases h : 65 ≤ c.toNat ∧ c.toNat ≤ 90
  · rw [if_pos h, isPySpace_false_of_ge c (by omega),
        isPySpace_false_of_ge _ (by rw [toNat_ofNat_lower _ (by omega)]; omega)]
  · rw [if_neg h]

theorem dropWhile_map_lowerChar (l : List Char) :
    (l.map lowerChar).dropWhile isPySpace = (l.dropWhile isPySpace).map lowerChar := by
  induction l with
  | nil => rfl
  | cons c rest ih =>
    rw [List.map_cons, List.dropWhile_cons, List.dropWhile_cons, isPySpace_lowerChar]
    cases h : isPySpace c
    · simp [h]
    · simp [h, ih]

theorem dropTrail_map_lowerChar (l : List Char) :
    dropTrailWhile isPySpace (l.map lowerChar) =
      (dropTrailWhile isPySpace l).map lowerChar := by
  induction l with
  | nil => rfl
  | cons c rest ih =>
    rw [List.map_cons, dropTrailWhile_cons, dropTrailWhile_cons, ih, isPySpace_lowerChar]
    by_cases h : dropTrailWhile isPySpace rest = []
    · cases hc : isPySpace c <;> simp [h, hc]
    · have h2 : ¬ ((dropTrailWhile isPySpace rest).map lowerChar = []) := by
        simpa using h
      simp [h, h2]

theorem stripList_map_lowerChar (l : List Char) :
    stripList (l.map lowerChar) = (stripList l).map lowerChar := by
  unfold stripList
  rw [dropWhile_map_lowerChar, dropTrail_map_lowerChar]

theorem pyStrip_pyLower (s : String) : pyStrip (pyLower s) = pyLower (pyStrip s) :=
  congrArg String.mk (stripList_map_lowerChar s.data)

theorem pyLower_idem (s : String) : pyLower (pyLower s) = pyLower s := by
  refine congrArg String.mk ?_
  show (s.data.map lowerChar).map lowerChar = s.data.map lowerChar
  rw [List.map_map]
  exact List.map_congr_left (fun c _ => lowerChar_idem c)

theorem string_eq_empty_iff (s : String) : s = "" ↔ s.data = [] := by
  constructor
  · intro h; rw [h]
  · intro h
    cases s with
    | mk data =>
      have h2 : data = [] := h
      subst h2
      rfl

theorem pyLower_ne_empty (s : String) (h : s ≠ "") : pyLower s ≠ "" := by
  intro he
  apply h
  rw [string_eq_empty_iff] at he ⊢
  simpa [pyLower] using he

/-! ## Idempotence of the normalization step -/

theorem cleanIssues_mem (xs : List String) (e : String) (h : e ∈ cleanIssues xs) :
    pyStrip e = e ∧ pyLower e = e ∧ e ≠ "" := by
  unfold cleanIssues at h
  have h1 := List.take_subset 3 _ h
  obtain ⟨x, hx, rfl⟩ := List.mem_map.mp h1
  have hxs : pyStrip x ≠ "" := by simpa using (List.mem_filter.mp hx).2
  refine ⟨pyStrip_idem _, ?_, ?_⟩
  · calc pyLower (pyStrip (pyLower x)) = pyLower (pyLower (pyStrip x)) := by
          rw [pyStrip_pyLower]
      _ = pyLower (pyStrip x) := pyLower_idem _
      _ = pyStrip (pyLower x) := (pyStrip_pyLower x).symm
  · rw [pyStrip_pyLower]
    exact pyLower_ne_empty _ hxs

theorem cleanRequests_mem (xs : List String) (e : String) (h : e ∈ cleanRequests xs) :
    pyStrip e = e ∧ e ≠ "" := by
  unfold cleanRequests at h
  have h1 := List.take_subset 3 _ h
  obtain ⟨x, hx, rfl⟩ := List.mem_map.mp h1
  have hxs : pyStrip x ≠ "" := by simpa using (List.mem_filter.mp hx).2
  exact ⟨pyStrip_idem _, hxs⟩

theorem length_cleanIssues_le (xs : List String) : (cleanIssues xs).length ≤ 3 := by
  unfold cleanIssues
  rw [List.length_take]
  exact Nat.min_le_left _ _

theorem length_cleanRequests_le (xs : List String) : (cleanRequests xs).length ≤ 3 := by
  unfold cleanRequests
  rw [List.length_take]
  exact Nat.min_le_left _ _

theorem cleanIssues_of_clean (L : List String)
    (hmem : ∀ e ∈ L, pyStrip e = e ∧ pyLower e = e ∧ e ≠ "")
    (hlen : L.length ≤ 3) : cleanIssues L = L := by
  unfold cleanIssues
  have h1 : L.filter (fun i => pyStrip i ≠ "") = L :=
    List.filter_eq_self.mpr (fun a ha => by
      rw [(hmem a ha).1]
      exact decide_eq_true (hmem a ha).2.2)
  have h2 : L.map (fun i => pyStrip (pyLower i)) = L := by
    have h3 : L.map (fun i => pyStrip (pyLower i)) = L.map id :=
      List.map_congr_left (fun a ha => by
        show pyStrip (pyLower a) = a
        rw [(hmem a ha).2.1, (hmem a ha).1])
    rw [h3, List.map_id]
  rw [h1, h2, List.take_of_length_le hlen]

theorem cleanIssues_idem (xs : List String) :
    cleanIssues (cleanIssues xs) = cleanIssues xs :=
  cleanIssues_of_clean (cleanIssues xs) (cleanIssues_mem xs) (length_cleanIssues_le xs)

theorem cleanRequests_of_clean (L : List String)
    (hmem : ∀ e ∈ L, pyStrip e = e ∧ e ≠ "")
    (hlen : L.length ≤ 3) : cleanRequests L = L := by
  unfold cleanRequests
  have h1 : L.filter (fun r => pyStrip r ≠ "") = L :=
    List.filter_eq_self.mpr (fun a ha => by
      rw [(hmem a ha).1]
      exact decide_eq_true (hmem a ha).2)
  have h2 : L.map (fun r => pyStrip r) = L := by
    have h3 : L.map (fun r => pyStrip r) = L.map id :=
      List.map_congr_left (fun a ha => (hmem a ha).1)
    rw [h3, List.map_id]
  rw [h1, h2, List.take_of_length_le hlen]

theorem cleanRequests_idem (xs : List String) :
    cleanRequests (cleanRequests xs) = cleanRequests xs :=
  cleanRequests_of_clean (cleanRequests xs) (cleanRequests_mem xs) (length_cleanRequests_le xs)

theorem clamp_idem (q : ℚ) : max 0 (min 1 (max 0 (min 1 q))) = max 0 (min 1 q) := by
  have h1 : max 0 (min 1 q) ≤ 1 := max_le (by norm_num) (min_le_left 1 q)
  rw [min_eq_right h1, max_eq_right (le_max_left 0 (min 1 q))]

theorem cleanPriority_idem (p : Option String) (issues : List String) :
    cleanPriority (cleanPriority p issues) issues = cleanPriority p issues := by
  cases p with
  | none => rfl
  | some p =>
    simp only [cleanPriority]
    by_cases hv : p ≠ "" ∧ ¬ validPriorities.contains p
    · rw [if_pos hv]
      by_cases hi : issues.isEmpty
      · rw [if_pos hi]
      · rw [if_neg hi]
        simp only [cleanPriority]
        rw [if_neg (by decide : ¬ (("media" : String) ≠ "" ∧
          ¬ validPriorities.contains "media"))]
    · rw [if_neg hv]
      simp only [cleanPriority]
      rw [if_neg hv]

theorem cleanThemes_idem (ts : List String) :
    (if (if ts.isEmpty then ["general"] else ts.take 3).isEmpty then ["general"]
      else (if ts.isEmpty then ["general"] else ts.take 3).take 3) =
    (if ts.isEmpty then ["general"] else ts.take 3) := by
  by_cases h : ts.isEmpty
  · rw [if_pos h]
    decide
  · rw [if_neg h]
    have hne : ¬ ((ts.take 3).isEmpty = true) := by
      rw [List.isEmpty_iff, List.take_eq_nil_iff]
      rintro (h3 | h3)
      · exact absurd h3 (by decide)
      · exact h (by rw [List.isEmpty_iff]; exact h3)
    rw [if_neg hne, List.take_take]
    norm_num

/-- C9: the normalization `_validate_analysis` is idempotent: applying it
twice (sentiment-label validation, score clamping, list truncation,
priority validation) gives the same judgment as applying it once. -/
theorem c9_normalization_idempotent (a : CommentAnalysis) :
    _validate_analysis (_validate_analysis a) = _validate_analysis a := by
  simp only [_validate_analysis, CommentAnalysis.mk.injEq]
  refine ⟨?_, clamp_idem _, cleanThemes_idem _, cleanIssues_idem _, ?_, cleanRequests_idem _⟩
  · by_cases h : validSentiments.contains a.sentiment
    · rw [if_pos h, if_pos h]
    · rw [if_neg h, if_pos (by decide : validSentiments.contains "neutral" = true)]
  · rw [cleanIssues_idem]
    exact cleanPriority_idem a.issue_priority (cleanIssues a.issues)

/-! ## C4: the issue-priority invariant -/

/-- C4, counterexample: the claim says every normalized judgment has a
null priority unless its issues list is non-empty; but `_validate_analysis`
only touches a priority that is present and invalid, so a judgment with a
valid priority `alta` and an empty issues list keeps `alta` with no
issues. -/
theorem c4_priority_counterexample :
    (_validate_analysis c4Input).issues = [] ∧
    (_validate_analysis c4Input).issue_priority = some "alta" := by
  constructor <;> rfl

/-- C4, amended: normalization rewrites the priority only when it is
present, truthy and not one of alta / media / baja — in that case it
becomes `media` exactly when the cleaned issues list is non-empty and
null otherwise; an absent priority stays null even when issues are
non-empty, and a valid one passes through unchanged even when the issues
list is empty. -/
theorem c4_priority_amended (a : CommentAnalysis) :
    ((_validate_analysis a).issue_priority =
      cleanPriority a.issue_priority (cleanIssues a.issues)) ∧
    (a.issue_priority = none → (_validate_analysis a).issue_priority = none) ∧
    (∀ p : String, a.issue_priority = some p → validPriorities.contains p = true →
      (_validate_analysis a).issue_priority = some p) ∧
    (∀ p : String, a.issue_priority = some p → p ≠ "" →
      validPriorities.contains p = false →
      (_validate_analysis a).issue_priority =
        (if (_validate_analysis a).issues.isEmpty then none else some "media")) := by
  refine ⟨rfl, ?_, ?_, ?_⟩
  · intro h
    show cleanPriority a.issue_priority (cleanIssues a.issues) = none
    rw [h]
    rfl
  · intro p hp hv
    show cleanPriority a.issue_priority (cleanIssues a.issues) = some p
    rw [hp]
    simp only [cleanPriority]
    rw [if_neg (fun hcon => hcon.2 hv)]
  · intro p hp hne hv
    show cleanPriority a.issue_priority (cleanIssues a.issues) = _
    rw [hp]
    simp only [cleanPriority]
    rw [if_pos ⟨hne, by intro hc; rw [hv] at hc; exact Bool.false_ne_true hc⟩]
    rfl

/-- C4, witness for the amended theorem at a concrete judgment. -/
theorem c4_priority_amended_witness :
    (_validate_analysis c4InvalidInput).issue_priority =
      (if (_validate_analysis c4InvalidInput).issues.isEmpty then none
       else some "media") :=
  (c4_priority_amended c4InvalidInput).2.2.2 "urgente" rfl (by decide) (by decide)

/-! ## C5: header alias resolution -/

theorem mem_applyAlias (hs : List String) (std : String) (vars : List String)
    (h : String) (hmem : h ∈ hs) (hnot : h ∉ vars) : h ∈ applyAlias hs std vars := by
  unfold applyAlias
  cases hf : vars.find? (fun v => hs.contains v) with
  | none => exact hmem
  | some v =>
    have hv : v ∈ vars := List.mem_of_find?_eq_some hf
    have hne : h ≠ v := fun e => hnot (e ▸ hv)
    exact List.mem_map.mpr ⟨h, hmem, by rw [if_neg hne]⟩

theorem mem_foldl_applyAlias (maps : List (String × List String)) (hs : List String)
    (h : String) (hmem : h ∈ hs) (hnot : ∀ p ∈ maps, h ∉ p.2) :
    h ∈ maps.foldl (fun hs p => applyAlias hs p.1 p.2) hs := by
  induction maps generalizing hs with
  | nil => exact hmem
  | cons q rest ih =>
    exact ih _ (mem_applyAlias hs q.1 q.2 h hmem (hnot q (List.mem_cons_self _ _)))
      (fun p hp => hnot p (List.mem_cons_of_mem _ hp))

/-- C5, counterexample: the claim says every uploaded file has its header
names resolved against the alias table; but the alias loop runs only when
no column is literally named `comment`, so in a header `comment,usuario`
the `username` alias `usuario` is left unresolved and the parsed record
defaults the author to `anonymous` instead of `user1`. -/
theorem c5_alias_counterexample :
    resolveHeaders ["comment", "usuario"] = ["comment", "usuario"] ∧
    ("username", ["username", "user", "usuario", "name", "nombre"]) ∈ column_mapping ∧
    "usuario" ∈ ["username", "user", "usuario", "name", "nombre"] ∧
    "username" ∉ resolveHeaders ["comment", "usuario"] ∧
    parse_feedback_table usuarioTable = Except.ok [usuarioRecord] := by
  refine ⟨rfl, by decide, by decide, by decide, rfl⟩

/-- C5, amended: when no header is literally `comment`, parse resolves
header names against the fixed alias table (first alias in table order,
case-sensitive equality); when a `comment` column is already present the
aliases are not applied at all. A header matching no alias is preserved
unchanged as a passthrough column. Scenario: `comentario,usuario,producto`
resolves to `comment,username,producto`, and the emitted record takes its
username from the `usuario` column. -/
theorem c5_alias_resolution_amended :
    (∀ hs : List String, hs.contains "comment" = true → resolveHeaders hs = hs) ∧
    (∀ (hs : List String) (h : String), h ∈ hs →
      (∀ p ∈ column_mapping, h ∉ p.2) → h ∈ resolveHeaders hs) ∧
    resolveHeaders ["comentario", "usuario", "producto"] =
      ["comment", "username", "producto"] ∧
    parse_feedback_table spanishTable = Except.ok [spanishRecord] := by
  refine ⟨?_, ?_, rfl, rfl⟩
  · intro hs h
    unfold resolveHeaders
    rw [if_pos h]
  · intro hs h hmem hnot
    unfold resolveHeaders
    by_cases hc : hs.contains "comment"
    · rw [if_pos hc]; exact hmem
    · rw [if_neg hc]
      exact mem_foldl_applyAlias column_mapping hs h hmem hnot

/-- C5, witness for the amended theorem at concrete headers. -/
theorem c5_alias_resolution_amended_witness :
    resolveHeaders ["comment", "x"] = ["comment", "x"] ∧
    "producto" ∈ resolveHeaders ["comentario", "usuario", "producto"] := by
  constructor
  · exact c5_alias_resolution_amended.1 ["comment", "x"] (by decide)
  · exact c5_alias_resolution_amended.2.1 ["comentario", "usuario", "producto"]
      "producto" (by decide) (by decide)

/-! ## C6: the ingestion length invariant -/

theorem mkRecord_comment (headers : List String) (row : List (Option String))
    (r : CommentData) (h : mkRecord headers row = some r) :
    5 < r.comment.length ∧ r.comment.length < 1000 ∧ pyStrip r.comment = r.comment := by
  unfold mkRecord at h
  split at h
  · exact absurd h (by simp)
  · rename_i c0 heq
    split at h
    · rename_i hlen
      have hr2 := Option.some.inj h
      rw [← hr2]
      exact ⟨hlen.1, hlen.2, pyStrip_idem c0⟩
    · exact absurd h (by simp)

/-- C6: every record emitted by ingestion has a trimmed comment whose
length lies strictly within (5, 1000); rows whose comment is missing or
whose trimmed comment falls outside these bounds are dropped — in the
scenario table the row with comment `"ok"` (length 2) is dropped and only
the valid row survives. -/
theorem c6_comment_length_invariant :
    (∀ (t : FeedbackTable) (recs : List CommentData),
      parse_feedback_table t = Except.ok recs →
      ∀ r ∈ recs, 5 < r.comment.length ∧ r.comment.length < 1000 ∧
        pyStrip r.comment = r.comment) ∧
    parse_feedback_table okTable = Except.ok [okRecord] := by
  constructor
  · intro t recs hok r hr
    simp only [parse_feedback_table] at hok
    by_cases hc : (resolveHeaders t.headers).contains "comment"
    · rw [if_pos hc] at hok
      have hrecs : t.rows.filterMap (mkRecord (resolveHeaders t.headers)) = recs :=
        Except.ok.inj hok
      rw [← hrecs] at hr
      obtain ⟨row, hrow, hmk⟩ := List.mem_filterMap.mp hr
      exact mkRecord_comment _ row r hmk
    · rw [if_neg hc] at hok
      exact absurd hok (by simp)
  · rfl

/-- C6, witness: the invariant applied to the record the scenario table
produces. -/
theorem c6_comment_length_invariant_witness :
    5 < okRecord.comment.length ∧ okRecord.comment.length < 1000 ∧
    pyStrip okRecord.comment = okRecord.comment :=
  c6_comment_length_invariant.1 okTable [okRecord] c6_comment_length_invariant.2
    okRecord (List.mem_singleton.mpr rfl)

/-! ## C3: the overall-sentiment rule -/

theorem head?_insertByCount (p : String × Nat) (acc : List (String × Nat)) :
    (insertByCount p acc).head? =
      some (match acc.head? with
            | none => p
            | some q => if p.2 > q.2 then p else q) := by
  cases acc with
  | nil => rfl
  | cons q rest =>
    simp only [insertByCount, List.head?_cons]
    rw [apply_ite List.head?]
    by_cases h : p.2 > q.2 <;> simp [h]

theorem head?_foldl_insert (c : List (String × Nat)) (acc : List (String × Nat)) :
    (c.foldl (fun acc p => insertByCount p acc) acc).head? = foldHead acc.head? c := by
  induction c generalizing acc with
  | nil => rfl
  | cons p rest ih =>
    have hstep : ∀ cur : Option (String × Nat),
        some (match cur with | none => p | some q => if p.2 > q.2 then p else q) =
        (match cur with
         | none => some p
         | some b => if p.2 > b.2 then some p else some b) := by
      intro cur
      cases cur with
      | none => rfl
      | some q => exact apply_ite some _ p q
    rw [List.foldl_cons, ih, head?_insertByCount, hstep]
    rfl

theorem maxCount_cons (p : String × Nat) (c : List (String × Nat)) :
    maxCount (p :: c) = max p.2 (maxCount c) := rfl

theorem foldHead_some_eq_firstMax (c : List (String × Nat)) (b : String × Nat) :
    foldHead (some b) c = (b :: c).find? (fun p => maxCount (b :: c) ≤ p.2) := by
  induction c generalizing b with
  | nil =>
    have hb : maxCount [b] ≤ b.2 := by
      rw [maxCount_cons]
      simp [maxCount]
    rw [List.find?_cons_of_pos _ (by simpa using hb)]
    rfl
  | cons p rest ih =>
    have hred : foldHead (some b) (p :: rest) =
        foldHead (if p.2 > b.2 then some p else some b) rest := rfl
    rw [hred]
    by_cases h : p.2 > b.2
    · rw [if_pos h, ih]
      have hM : maxCount (p :: rest) = maxCount (b :: p :: rest) := by
        rw [maxCount_cons, maxCount_cons, maxCount_cons]
        omega
      have hbfail : ¬ (maxCount (b :: p :: rest) ≤ b.2) := by
        rw [maxCount_cons, maxCount_cons]
        omega
      rw [hM]
      conv_rhs => rw [List.find?_cons_of_neg _ (by simpa using hbfail)]
    · rw [if_neg h, ih]
      have hM : maxCount (b :: rest) = maxCount (b :: p :: rest) := by
        rw [maxCount_cons, maxCount_cons, maxCount_cons]
        omega
      rw [hM]
      by_cases hb : maxCount (b :: p :: rest) ≤ b.2
      · rw [List.find?_cons_of_pos _ (by simpa using hb),
            List.find?_cons_of_pos _ (by simpa using hb)]
      · have hpfail : ¬ (maxCount (b :: p :: rest) ≤ p.2) := by
          rw [maxCount_cons, maxCount_cons] at hb ⊢
          omega
        rw [List.find?_cons_of_neg _ (by simpa using hb),
            List.find?_cons_of_neg _ (by simpa using hb),
            List.find?_cons_of_neg _ (by simpa using hpfail)]

theorem counterAdd_ne_nil (c : List (String × Nat)) (x : String) :
    counterAdd c x ≠ [] := by
  unfold counterAdd
  split
  · rename_i hany
    intro he
    rw [List.map_eq_nil_iff] at he
    rw [he] at hany
    simp at hany
  · simp

theorem counterUpdate_ne_nil (c : List (String × Nat)) (xs : List String)
    (h : c ≠ []) : counterUpdate c xs ≠ [] := by
  induction xs generalizing c with
  | nil => exact h
  | cons x rest ih => exact ih (counterAdd c x) (counterAdd_ne_nil c x)

theorem countList_ne_nil (xs : List String) (h : xs ≠ []) : countList xs ≠ [] := by
  cases xs with
  | nil => exact absurd rfl h
  | cons x rest =>
    show counterUpdate (counterAdd [] x) rest ≠ []
    exact counterUpdate_ne_nil _ rest (counterAdd_ne_nil [] x)

theorem take_one_get? {α : Type} (l : List α) : (l.take 1).get? 0 = l.head? := by
  cases l <;> rfl

/-- The label `aggregate_results` reads from `most_common(1)` is the first
entry of the insertion-ordered counter whose count is maximal. -/
theorem most_common_one_eq_firstMax (ls : List String) (h : ls ≠ []) :
    (most_common 1 (countList ls)).get? 0 =
      (countList ls).find? (fun p => maxCount (countList ls) ≤ p.2) := by
  unfold most_common
  rw [take_one_get?]
  unfold sortByCountDesc
  rw [head?_foldl_insert]
  cases hc : countList ls with
  | nil => exact absurd hc (countList_ne_nil ls h)
  | cons q rest =>
    show foldHead (some q) rest = _
    rw [foldHead_some_eq_firstMax]

theorem length_insertByCount (p : String × Nat) (acc : List (String × Nat)) :
    (insertByCount p acc).length = acc.length + 1 := by
  induction acc with
  | nil => rfl
  | cons q rest ih =>
    simp only [insertByCount]
    by_cases h : p.2 > q.2
    · rw [if_pos h]; rfl
    · rw [if_neg h, List.length_cons, List.length_cons, ih]

theorem length_sortByCountDesc (c : List (String × Nat)) :
    (sortByCountDesc c).length = c.length := by
  unfold sortByCountDesc
  suffices h : ∀ acc : List (String × Nat),
      (c.foldl (fun acc p => insertByCount p acc) acc).length = acc.length + c.length by
    simpa using h []
  induction c with
  | nil => intro acc; simp
  | cons p rest ih =>
    intro acc
    rw [List.foldl_cons, ih (insertByCount p acc), length_insertByCount,
        List.length_cons]
    omega

theorem exists_most_common_one (ls : List String) (h : ls ≠ []) :
    ∃ top, (most_common 1 (countList ls)).get? 0 = some top := by
  unfold most_common
  rw [take_one_get?]
  cases hh : (sortByCountDesc (countList ls)).head? with
  | none =>
    rw [List.head?_eq_none_iff] at hh
    have hlen : (sortByCountDesc (countList ls)).length = (countList ls).length :=
      length_sortByCountDesc _
    rw [hh] at hlen
    exact absurd (List.length_eq_zero.mp hlen.symm) (countList_ne_nil ls h)
  | some t => exact ⟨t, rfl⟩

theorem aggregate_results_overall (analyses : List CommentAnalysis)
    (comments_data : List CommentData) (h1 : analyses ≠ [])
    (top : String × Nat)
    (htop : (most_common 1 (countList (analyses.map (fun a => a.sentiment)))).get? 0 =
      some top) :
    (aggregate_results analyses comments_data).map
      (fun r => (r.overall_sentiment.label, r.overall_sentiment.score)) =
      some (top.1, overallScore analyses) := by
  unfold aggregate_results
  rw [if_neg (by simpa [List.isEmpty_iff] using h1), htop]
  rfl

theorem overallScore_eq_specMean (analyses : List CommentAnalysis)
    (h : ∀ a ∈ analyses, 0 ≤ a.sentiment_score) :
    overallScore analyses = specMeanScore analyses := by
  unfold overallScore specMeanScore positiveScores
  have hf : (analyses.map (fun a => a.sentiment_score)).filter (fun q => 0 < q) =
      (analyses.map (fun a => a.sentiment_score)).filter (fun q => q ≠ 0) := by
    apply List.filter_congr
    intro q hq
    rw [decide_eq_decide]
    obtain ⟨a, ha, rfl⟩ := List.mem_map.mp hq
    have h0 := h a ha
    constructor
    · intro hlt
      exact ne_of_gt hlt
    · intro hne
      exact lt_of_le_of_ne h0 (Ne.symm hne)
  rw [hf]

/-- C3, counterexample: the claim says the 5-judgment scenario (labels
positive / neutral / negative / neutral / positive, scores 0.9 / 0.6 /
0.2 / 0.7 / 0.8) aggregates to overall label `neutral`; the stable
`most_common` tie-break actually picks `positive`, the first-seen label
among the two tied at count 2 (the 0.64 mean does hold). -/
theorem c3_overall_sentiment_counterexample :
    (aggregate_results scenarioJudgments scenarioRecords).map
      (fun r => (r.overall_sentiment.label, r.overall_sentiment.score)) =
      some ("positive", 16/25) ∧ ("positive" : String) ≠ "neutral" := by
  constructor
  · decide
  · decide

/-- C3, amended: for every non-empty judgment list, the overall label is
the mode of the labels with ties broken by first-seen order during the
count (the first counter entry reaching the maximal count), and the
overall score is the arithmetic mean of the scores with exactly-zero
scores excluded, defaulting to 0.5 when no positive scores exist; in the
5-judgment scenario the tie resolves to `positive` (not `neutral`) with
mean 0.64. -/
theorem c3_overall_sentiment_amended (analyses : List CommentAnalysis)
    (comments_data : List CommentData) (h1 : analyses ≠ [])
    (h2 : ∀ a ∈ analyses, 0 ≤ a.sentiment_score) :
    ∃ lab : String, specModeLabel analyses = some lab ∧
      (aggregate_results analyses comments_data).map
        (fun r => (r.overall_sentiment.label, r.overall_sentiment.score)) =
        some (lab, specMeanScore analyses) := by
  have hls : analyses.map (fun a => a.sentiment) ≠ [] := by
    intro he
    rw [List.map_eq_nil_iff] at he
    exact h1 he
  obtain ⟨top, htop⟩ := exists_most_common_one (analyses.map (fun a => a.sentiment)) hls
  refine ⟨top.1, ?_, ?_⟩
  · have hchar := most_common_one_eq_firstMax (analyses.map (fun a => a.sentiment)) hls
    rw [htop] at hchar
    show ((countList (analyses.map (fun a => a.sentiment))).find?
        (fun p => maxCount (countList (analyses.map (fun a => a.sentiment))) ≤ p.2)).map
        (fun p => p.1) = some top.1
    rw [← hchar]
    rfl
  · rw [aggregate_results_overall analyses comments_data h1 top htop,
        overallScore_eq_specMean analyses h2]

/-- C3, witness for the amended theorem at the scenario judgments. -/
theorem c3_overall_sentiment_amended_witness :
    ∃ lab : String, specModeLabel scenarioJudgments = some lab ∧
      (aggregate_results scenarioJudgments scenarioRecords).map
        (fun r => (r.overall_sentiment.label, r.overall_sentiment.score)) =
        some (lab, specMeanScore scenarioJudgments) :=
  c3_overall_sentiment_amended scenarioJudgments scenarioRecords (by decide)
    (by decide)

/-! ## C7: the per-field grouping breakdown -/

theorem alookup_cons {α β : Type} [DecidableEq α] (q : α × β) (rest : List (α × β))
    (k : α) : alookup (q :: rest) k = if q.1 = k then some q.2 else alookup rest k := by
  unfold alookup
  by_cases h : q.1 = k
  · rw [List.find?_cons_of_pos _ (by simpa using h), if_pos h]
    rfl
  · rw [List.find?_cons_of_neg _ (by simpa using h), if_neg h]

theorem alookup_upsertBucket (acc : List (Option String × RawBucket))
    (k k' : Option String) (a : CommentAnalysis) :
    alookup (upsertBucket k' a acc) k =
      if k = k' then some (bucketUpd ((alookup acc k').getD emptyRawBucket) a)
      else alookup acc k := by
  induction acc with
  | nil =>
    by_cases h : k = k'
    · subst h
      show alookup [(k, bucketUpd emptyRawBucket a)] k = _
      rw [alookup_cons, if_pos rfl, if_pos rfl]
      rfl
    · show alookup [(k', bucketUpd emptyRawBucket a)] k = _
      rw [alookup_cons, if_neg (fun e => h e.symm), if_neg h]
  | cons q rest ih =>
    obtain ⟨qk, qb⟩ := q
    show alookup (if qk = k' then (qk, bucketUpd qb a) :: rest
      else (qk, qb) :: upsertBucket k' a rest) k = _
    rw [alookup_cons (qk, qb) rest k', alookup_cons (qk, qb) rest k]
    by_cases hq : qk = k'
    · rw [if_pos hq, if_pos hq, alookup_cons]
      by_cases h : k = k'
      · have hqk : qk = k := hq.trans h.symm
        rw [if_pos hqk, if_pos h]
        rfl
      · have hqk : ¬ (qk = k) := fun e => h (e.symm.trans hq)
        rw [if_neg hqk, if_neg h, if_neg hqk]
    · rw [if_neg hq, if_neg hq, alookup_cons, ih]
      by_cases hk : qk = k
      · have hkk : ¬ (k = k') := fun e => hq (hk.trans e)
        rw [if_pos hk, if_neg hkk, if_pos hk]
      · rw [if_neg hk]
        by_cases h : k = k'
        · rw [if_pos h, if_pos h]
        · rw [if_neg h, if_neg h, if_neg hk]

theorem countList_append (xs ys : List String) :
    countList (xs ++ ys) = counterUpdate (countList xs) ys := by
  unfold countList counterUpdate
  rw [List.foldl_append]

theorem rawBucketOf_nil : rawBucketOf [] = emptyRawBucket := rfl

theorem rawBucketOf_snoc (ms : List (CommentAnalysis × CommentData))
    (m : CommentAnalysis × CommentData) :
    rawBucketOf (ms ++ [m]) = bucketUpd (rawBucketOf ms) m.1 := by
  unfold rawBucketOf bucketUpd
  have h1 : (ms ++ [m]).map (fun x => x.1.sentiment) =
      ms.map (fun x => x.1.sentiment) ++ [m.1.sentiment] := by
    rw [List.map_append]
    rfl
  have h2 : ((ms ++ [m]).map (fun x => x.1.themes)).flatten =
      (ms.map (fun x => x.1.themes)).flatten ++ m.1.themes := by
    rw [List.map_append, List.flatten_append]
    simp
  have h3 : ((ms ++ [m]).map (fun x => x.1.issues)).flatten =
      (ms.map (fun x => x.1.issues)).flatten ++ m.1.issues := by
    rw [List.map_append, List.flatten_append]
    simp
  rw [h1, h2, h3, countList_append, countList_append, countList_append]
  have h4 : counterUpdate (countList (ms.map (fun x => x.1.sentiment)))
      [m.1.sentiment] = counterAdd (countList (ms.map (fun x => x.1.sentiment)))
      m.1.sentiment := rfl
  rw [h4, List.length_append]
  rfl

theorem bucketMembers_append (pairs : List (CommentAnalysis × CommentData))
    (m : CommentAnalysis × CommentData) (field : String) (k : Option String) :
    bucketMembers (pairs ++ [m]) field k =
      bucketMembers pairs field k ++
        (if m.2.pyGet field (some "unknown") = k then [m] else []) := by
  unfold bucketMembers
  rw [List.filter_append]
  congr 1
  by_cases h : m.2.pyGet field (some "unknown") = k
  · rw [if_pos h]
    simp [h]
  · rw [if_neg h]
    simp [h]

theorem alookup_collect (field : String)
    (pairs : List (CommentAnalysis × CommentData)) :
    ∀ k : Option String,
      alookup (pairs.foldl
          (fun acc m => upsertBucket (m.2.pyGet field (some "unknown")) m.1 acc) []) k =
        (if bucketMembers pairs field k = [] then none
         else some (rawBucketOf (bucketMembers pairs field k))) := by
  induction pairs using List.reverseRecOn with
  | nil =>
    intro k
    simp [bucketMembers, alookup]
  | append_singleton pairs m ih =>
    intro k
    rw [List.foldl_append, List.foldl_cons, List.foldl_nil, alookup_upsertBucket,
        bucketMembers_append]
    by_cases hmk : m.2.pyGet field (some "unknown") = k
    · subst hmk
      rw [if_pos rfl, if_pos rfl, if_neg (by simp), rawBucketOf_snoc,
          ih (m.2.pyGet field (some "unknown"))]
      by_cases hm : bucketMembers pairs field (m.2.pyGet field (some "unknown")) = []
      · rw [if_pos hm, hm, rawBucketOf_nil]
        rfl
      · rw [if_neg hm]
        rfl
    · rw [if_neg hmk, List.append_nil, if_neg (fun e => hmk e.symm), ih k]

theorem mem_upsertBucket (x : Option String × RawBucket) (k : Option String)
    (a : CommentAnalysis) (acc : List (Option String × RawBucket))
    (h : x ∈ upsertBucket k a acc) :
    x ∈ acc ∨ ∃ b : RawBucket, x.2 = bucketUpd b a := by
  induction acc with
  | nil =>
    simp only [upsertBucket, List.mem_singleton] at h
    right
    exact ⟨emptyRawBucket, by rw [h]⟩
  | cons q rest ih =>
    simp only [upsertBucket] at h
    by_cases hq : q.1 = k
    · rw [if_pos hq] at h
      rcases List.mem_cons.mp h with h1 | h1
      · right
        exact ⟨q.2, by rw [h1]⟩
      · left
        exact List.mem_cons_of_mem _ h1
    · rw [if_neg hq] at h
      rcases List.mem_cons.mp h with h1 | h1
      · left
        exact h1 ▸ List.mem_cons_self _ _
      · rcases ih h1 with h2 | h2
        · left
          exact List.mem_cons_of_mem _ h2
        · right
          exact h2

theorem total_pos_collect (field : String) (pairs : List (CommentAnalysis × CommentData))
    (acc : List (Option String × RawBucket))
    (hacc : ∀ x ∈ acc, 0 < x.2.total_comments) (x : Option String × RawBucket)
    (hx : x ∈ pairs.foldl
      (fun acc m => upsertBucket (m.2.pyGet field (some "unknown")) m.1 acc) acc) :
    0 < x.2.total_comments := by
  induction pairs generalizing acc with
  | nil => exact hacc x hx
  | cons m rest ih =>
    rw [List.foldl_cons] at hx
    refine ih _ ?_ hx
    intro y hy
    rcases mem_upsertBucket y _ _ _ hy with h1 | ⟨b, hb⟩
    · exact hacc y h1
    · rw [hb]
      show 0 < b.total_comments + 1
      omega

theorem alookup_filterMap_finalize (l : List (Option String × RawBucket))
    (hpos : ∀ x ∈ l, 0 < x.2.total_comments) (k : Option String) :
    alookup (l.filterMap (fun p =>
      if 0 < p.2.total_comments then some (p.1, finalizeBucket p.2) else none)) k =
    (alookup l k).map (fun b => finalizeBucket b) := by
  induction l with
  | nil => rfl
  | cons q rest ih =>
    have hq : (fun p : Option String × RawBucket =>
        if 0 < p.2.total_comments then some (p.1, finalizeBucket p.2) else none) q =
        some (q.1, finalizeBucket q.2) := if_pos (hpos q (List.mem_cons_self _ _))
    simp only [List.filterMap_cons, hq]
    rw [alookup_cons, alookup_cons]
    by_cases h : q.1 = k
    · rw [if_pos h, if_pos h]
      rfl
    · rw [if_neg h, if_neg h]
      exact ih (fun x hx => hpos x (List.mem_cons_of_mem _ hx))

theorem collectByFieldGo_eq_zip (field : String) (comments_data : List CommentData)
    (analyses : List CommentAnalysis) (i : Nat)
    (acc : List (Option String × RawBucket)) :
    collectByFieldGo field comments_data i analyses acc =
      (analyses.zip (comments_data.drop i)).foldl
        (fun acc m => upsertBucket (m.2.pyGet field (some "unknown")) m.1 acc) acc := by
  induction analyses generalizing i acc with
  | nil => rfl
  | cons a rest ih =>
    by_cases h : i < comments_data.length
    · rw [List.drop_eq_getElem_cons h]
      simp only [collectByFieldGo]
      rw [if_pos h, ih, List.zip_cons_cons, List.foldl_cons]
      have hgetD : comments_data.getD i defaultRecord = comments_data[i] := by
        rw [List.getD_eq_getElem?_getD, List.getElem?_eq_getElem h]
        rfl
      rw [hgetD]
    · have hge : comments_data.length ≤ i := Nat.le_of_not_lt h
      simp only [collectByFieldGo]
      rw [if_neg h, ih, List.drop_eq_nil_of_le hge,
          List.drop_eq_nil_of_le (Nat.le_succ_of_le hge)]
      simp [List.zip_nil_right]

/-- C7, counterexample: the claim says records missing a value for the
grouping field bucket under the literal key `"unknown"`; but a record
whose channel is a stored Python `None` (the value parse emits when the
channel column is absent) buckets under the `None` key itself — only a
record whose dict lacks the key falls back to `"unknown"`. -/
theorem c7_grouping_counterexample :
    (_aggregate_by_field [fallbackGeneral] [nullChannelRecord] "channel").map
      (fun p => p.1) = [none] ∧
    alookup (_aggregate_by_field [fallbackGeneral] [nullChannelRecord] "channel")
      (some "unknown") = none ∧
    (none : Option String) ≠ some "unknown" := by
  refine ⟨by decide, by decide, by decide⟩

/-- C7, amended: in every per-field breakdown each judgment is bucketed
by its record's value for the field, where a record whose dict lacks the
key (such as `sku`) buckets under `"unknown"` while a stored null value
buckets under the null key itself; the bucket under key `k` exists
exactly when some positionally-paired judgment/record has that field
value, and it carries the member count, the sentiment histogram, the
top-5 theme names and the top-3 issue names of its members; judgments
beyond the record list are skipped. -/
theorem c7_grouping_amended (analyses : List CommentAnalysis)
    (comments_data : List CommentData) (field : String) (k : Option String) :
    alookup (_aggregate_by_field analyses comments_data field) k =
      (if bucketMembers (analyses.zip comments_data) field k = [] then none
       else some (finalizeBucket
         (rawBucketOf (bucketMembers (analyses.zip comments_data) field k)))) := by
  unfold _aggregate_by_field
  rw [collectByFieldGo_eq_zip, List.drop_zero,
      alookup_filterMap_finalize _
        (fun x hx => total_pos_collect field _ [] (fun y hy => absurd hy (by simp)) x hx) k,
      alookup_collect field (analyses.zip comments_data) k]
  by_cases h : bucketMembers (analyses.zip comments_data) field k = []
  · rw [if_pos h, if_pos h]
    rfl
  · rw [if_neg h, if_neg h]
    rfl

/-! ## C8: the by-sku breakdown -/

/-- C8: the `sku` value of an input row is not carried through ingestion
(the record `skuTable` parses to stores only comment / username / channel
/ date), so the by-sku grouping buckets every judgment under the absent-key
default `"unknown"` and no `KALE-90G` bucket exists; moreover the response
model `FeedbackAnalyzeResponse` declares no `by_sku` field (the `by_sku=`
keyword the chain passes is silently discarded by pydantic), so the report
handed to the caller carries only the by-channel breakdown. The repo's own
tests assert the opposite (`comments_data[0]["sku"] == "KALE-90G"`,
`result.by_sku`, `highlight.sku`), so this is a defect of the code. -/
theorem c8_sku_dropped :
    parse_feedback_table skuTable = Except.ok [skuRecord] ∧
    skuRecord.pyGet "sku" (some "unknown") = some "unknown" ∧
    (_aggregate_by_field [fallbackGeneral] [skuRecord] "sku").map (fun p => p.1) =
      [some "unknown"] ∧
    alookup (_aggregate_by_field [fallbackGeneral] [skuRecord] "sku")
      (some "KALE-90G") = none := by
  refine ⟨rfl, rfl, by decide, by decide⟩

/-! ## C10: aggregation is total on length-mismatched inputs -/

theorem themeExamplesGo_stop (theme : String) (cd : List CommentData)
    (analyses : List CommentAnalysis) (i : Nat) (acc : List String)
    (h : cd.length ≤ i) : themeExamplesGo theme cd i analyses acc = acc := by
  induction analyses generalizing i acc with
  | nil => rfl
  | cons a rest ih =>
    simp only [themeExamplesGo]
    rw [if_neg (fun hcon => absurd hcon.2 (Nat.not_lt.mpr h))]
    exact ih (i + 1) acc (Nat.le_succ_of_le h)

theorem themeExamplesGo_take (theme : String) (cd : List CommentData)
    (analyses : List CommentAnalysis) (i : Nat) (acc : List String) :
    themeExamplesGo theme cd i (analyses.take (cd.length - i)) acc =
      themeExamplesGo theme cd i analyses acc := by
  induction analyses generalizing i acc with
  | nil => rw [List.take_nil]
  | cons a rest ih =>
    by_cases h : i < cd.length
    · have hk : cd.length - i = (cd.length - (i + 1)) + 1 := by omega
      rw [hk, List.take_succ_cons]
      simp only [themeExamplesGo]
      by_cases hg : theme ∈ a.themes ∧ i < cd.length
      · rw [if_pos hg, if_pos hg]
        by_cases hstop : 3 ≤ (if (cd.getD i defaultRecord).comment ≠ "" ∧
            (cd.getD i defaultRecord).comment.length < 100
          then acc ++ [(cd.getD i defaultRecord).comment] else acc).length
        · rw [if_pos hstop, if_pos hstop]
        · rw [if_neg hstop, if_neg hstop, ih]
      · rw [if_neg hg, if_neg hg, ih]
    · have h0 : cd.length - i = 0 := by omega
      rw [h0, List.take_zero, themeExamplesGo_stop theme cd (a :: rest) i acc
        (Nat.le_of_not_lt h)]
      rfl

theorem highlightsGo_stop (cd : List CommentData)
    (analyses : List CommentAnalysis) (i : Nat) (acc : List Highlight)
    (h : cd.length ≤ i) : highlightsGo cd i analyses acc = acc := by
  induction analyses generalizing i acc with
  | nil => rfl
  | cons a rest ih =>
    simp only [highlightsGo]
    rw [if_neg (fun hcon => absurd hcon.2.2 (Nat.not_lt.mpr h))]
    exact ih (i + 1) acc (Nat.le_succ_of_le h)

theorem highlightsGo_take (cd : List CommentData)
    (analyses : List CommentAnalysis) (i : Nat) (acc : List Highlight) :
    highlightsGo cd i (analyses.take (cd.length - i)) acc =
      highlightsGo cd i analyses acc := by
  induction analyses generalizing i acc with
  | nil => rw [List.take_nil]
  | cons a rest ih =>
    by_cases h : i < cd.length
    · have hk : cd.length - i = (cd.length - (i + 1)) + 1 := by omega
      rw [hk, List.take_succ_cons]
      simp only [highlightsGo]
      by_cases hg : a.sentiment = "positive" ∧ (8 : ℚ)/10 < a.sentiment_score ∧
          i < cd.length
      · rw [if_pos hg, if_pos hg]
        by_cases hstop : 5 ≤ (if 20 < (cd.getD i defaultRecord).comment.length ∧
            (cd.getD i defaultRecord).comment.length < 150
          then acc ++ [{ quote := (cd.getD i defaultRecord).comment,
                         channel := (cd.getD i defaultRecord).channel }] else acc).length
        · rw [if_pos hstop, if_pos hstop]
        · rw [if_neg hstop, if_neg hstop, ih]
      · rw [if_neg hg, if_neg hg, ih]
    · have h0 : cd.length - i = 0 := by omega
      rw [h0, List.take_zero, highlightsGo_stop cd (a :: rest) i acc
        (Nat.le_of_not_lt h)]
      rfl

theorem zip_take_length {α β : Type} (l1 : List α) (l2 : List β) :
    (l1.take l2.length).zip l2 = l1.zip l2 := by
  induction l2 generalizing l1 with
  | nil => simp
  | cons b rest ih =>
    cases l1 with
    | nil => simp
    | cons a t =>
      rw [List.length_cons, List.take_succ_cons, List.zip_cons_cons,
          List.zip_cons_cons, ih]

/-- C10: `aggregate_results` is total even when the judgment list is
longer than the record list: it returns a report, and the three
index-correlated passes (theme examples, highlights, per-field grouping)
skip the out-of-range indices — each equals its value on the judgment
list truncated to the record-list length, because each loop guards the
index with `i < len(comments_data)`. -/
theorem c10_aggregate_totality (analyses : List CommentAnalysis)
    (comments_data : List CommentData) (theme field : String)
    (h : comments_data.length < analyses.length) :
    (aggregate_results analyses comments_data).isSome = true ∧
    _get_theme_examples theme analyses comments_data =
      _get_theme_examples theme (analyses.take comments_data.length) comments_data ∧
    _generate_highlights analyses comments_data =
      _generate_highlights (analyses.take comments_data.length) comments_data ∧
    _aggregate_by_field analyses comments_data field =
      _aggregate_by_field (analyses.take comments_data.length) comments_data field := by
  have hne : analyses ≠ [] := by
    intro he
    rw [he] at h
    simp at h
  refine ⟨?_, ?_, ?_, ?_⟩
  · obtain ⟨top, htop⟩ := exists_most_common_one (analyses.map (fun a => a.sentiment))
      (by intro he; rw [List.map_eq_nil_iff] at he; exact hne he)
    unfold aggregate_results
    rw [if_neg (by simpa [List.isEmpty_iff] using hne), htop]
    rfl
  · have ht := themeExamplesGo_take theme comments_data analyses 0 []
    rw [Nat.sub_zero] at ht
    exact ht.symm
  · have hh := highlightsGo_take comments_data analyses 0 []
    rw [Nat.sub_zero] at hh
    exact hh.symm
  · unfold _aggregate_by_field
    rw [collectByFieldGo_eq_zip, collectByFieldGo_eq_zip, List.drop_zero,
        zip_take_length]

/-- C10, witness at a concrete two-judgment, one-record input. -/
theorem c10_aggregate_totality_witness :
    (aggregate_results [fallbackGeneral, fallbackError] [okRecord]).isSome = true ∧
    _get_theme_examples "general" [fallbackGeneral, fallbackError] [okRecord] =
      _get_theme_examples "general"
        ([fallbackGeneral, fallbackError].take [okRecord].length) [okRecord] ∧
    _generate_highlights [fallbackGeneral, fallbackError] [okRecord] =
      _generate_highlights
        ([fallbackGeneral, fallbackError].take [okRecord].length) [okRecord] ∧
    _aggregate_by_field [fallbackGeneral, fallbackError] [okRecord] "channel" =
      _aggregate_by_field
        ([fallbackGeneral, fallbackError].take [okRecord].length) [okRecord] "channel" :=
  c10_aggregate_totality [fallbackGeneral, fallbackError] [okRecord] "general"
    "channel" (by decide)
